import Mathlib

/-!
Verification development for the Retrovue playout engine (retrovue_air).

Shallow embedding of the subsystems the specification talks about:
the single-producer/single-consumer frame ring (`buffer/FrameRingBuffer.cpp`),
the MPEG-TS pacing sink's per-frame decision loop
(`playout_sinks/mpegts/MpegTSPlayoutSink.cpp`, `workerLoop`), the sink's
start/stop lifecycle, the shutdown null-packet padding, the Unix-domain-socket
transport writer (`playout_sinks/mpegts/TsOutputSink.cpp`, `Write`), and the
channel lifecycle operations of `runtime/PlayoutEngine.cpp`.

Each definition mirrors one C++ function; machine integers are modelled as
`Int`/`Nat` (the C++ code keeps ring indices strictly below the slot count, so
plain naturals with `%` match the `uint32_t` arithmetic), `std::vector` /
heap-allocated slot arrays as Lean lists / index functions, and effectful
socket calls as explicit event traces.
-/

namespace RetrovueAir

/-- `retrovue::buffer::FrameMetadata` (FrameRingBuffer.h): timing and
provenance metadata of a decoded frame.  The C++ `double duration` is
modelled as a rational number. -/
structure FrameMetadata where
  pts : Int
  dts : Int
  duration : Rat
  asset_uri : String
deriving Repr, DecidableEq

/-- Default-constructed `FrameMetadata()`: pts 0, dts 0, duration 0, empty uri. -/
instance : Inhabited FrameMetadata := ⟨⟨0, 0, 0, ""⟩⟩

/-- `retrovue::buffer::Frame` (FrameRingBuffer.h): decoded picture plus
metadata.  The raw byte payload `std::vector<uint8_t> data` is a list of
byte values. -/
structure Frame where
  metadata : FrameMetadata
  data : List Nat
  width : Int
  height : Int
deriving Repr, DecidableEq

/-- Default-constructed `Frame()`: width 0, height 0, empty payload. -/
instance : Inhabited Frame := ⟨⟨default, [], 0, 0⟩⟩

/-- `retrovue::buffer::FrameRingBuffer` state: the slot count `capacity_`
(the constructor stores `capacity + 1`), the slot array `buffer_` (a total
function on slot indices; only indices `< capacity_` are ever used), and the
two indices.  In the C++ code the indices are `std::atomic<uint32_t>` but
every store keeps them strictly below `capacity_`, so `Nat` is faithful. -/
structure FrameRingBuffer where
  capacity_ : Nat
  buffer_ : Nat → Frame
  write_index_ : Nat
  read_index_ : Nat

/-- `FrameRingBuffer::FrameRingBuffer(size_t capacity)`: stores
`capacity + 1` slots ("+1 to distinguish full from empty") and zero
indices; `new Frame[capacity + 1]` default-constructs every slot. -/
def FrameRingBuffer.create (capacity : Nat) : FrameRingBuffer :=
  { capacity_ := capacity + 1
    buffer_ := fun _ => default
    write_index_ := 0
    read_index_ := 0 }

/-- `FrameRingBuffer::Push`: fails (returning the state unchanged) iff
advancing the write index would collide with the read index; otherwise
copies the frame into slot `write_index_` and advances the write index
modulo `capacity_`. -/
def FrameRingBuffer.Push (rb : FrameRingBuffer) (frame : Frame) :
    FrameRingBuffer × Bool :=
  let current_write := rb.write_index_
  let next_write := (current_write + 1) % rb.capacity_
  if next_write = rb.read_index_ then
    (rb, false)
  else
    ({ rb with
        buffer_ := fun i => if i = current_write then frame else rb.buffer_ i
        write_index_ := next_write },
     true)

/-- `FrameRingBuffer::Pop`: fails (state unchanged) iff the buffer is empty
(`read_index_ == write_index_`); otherwise returns the frame at
`read_index_` and advances the read index modulo `capacity_`. -/
def FrameRingBuffer.Pop (rb : FrameRingBuffer) :
    FrameRingBuffer × Option Frame :=
  let current_read := rb.read_index_
  if current_read = rb.write_index_ then
    (rb, none)
  else
    ({ rb with read_index_ := (current_read + 1) % rb.capacity_ },
     some (rb.buffer_ current_read))

/-- `FrameRingBuffer::Size`: `write - read` when `write >= read`, else
`capacity_ - (read - write)`. -/
def FrameRingBuffer.Size (rb : FrameRingBuffer) : Nat :=
  if rb.read_index_ ≤ rb.write_index_ then
    rb.write_index_ - rb.read_index_
  else
    rb.capacity_ - (rb.read_index_ - rb.write_index_)

/-- `FrameRingBuffer::Capacity`: returns the stored slot count `capacity_`
(which the constructor set to the requested capacity plus one). -/
def FrameRingBuffer.Capacity (rb : FrameRingBuffer) : Nat :=
  rb.capacity_

/-- `FrameRingBuffer::IsEmpty`: `read_index_ == write_index_`. -/
def FrameRingBuffer.IsEmpty (rb : FrameRingBuffer) : Bool :=
  rb.read_index_ = rb.write_index_

/-- `FrameRingBuffer::IsFull`: `(write_index_ + 1) % capacity_ == read_index_`. -/
def FrameRingBuffer.IsFull (rb : FrameRingBuffer) : Bool :=
  (rb.write_index_ + 1) % rb.capacity_ = rb.read_index_

/-- `FrameRingBuffer::Peek` as used by the sink: the oldest frame, if any.
(The C++ method returns a pointer to slot `read_index_`, or `nullptr` when
empty.) -/
def FrameRingBuffer.Peek (rb : FrameRingBuffer) : Option Frame :=
  if rb.read_index_ = rb.write_index_ then none
  else some (rb.buffer_ rb.read_index_)

/-- Well-formedness of a ring state: at least one slot, indices in range.
Holds for `create` and is preserved by `Push`/`Pop` (the only mutators ever
store `x % capacity_`). -/
def FrameRingBuffer.WF (rb : FrameRingBuffer) : Prop :=
  0 < rb.capacity_ ∧ rb.write_index_ < rb.capacity_ ∧ rb.read_index_ < rb.capacity_

/-- Abstraction: the frames currently held, oldest first (slot `read_index_`
up to slot `write_index_`, wrapping modulo `capacity_`). -/
def FrameRingBuffer.contents (rb : FrameRingBuffer) : List Frame :=
  (List.range rb.Size).map (fun i => rb.buffer_ ((rb.read_index_ + i) % rb.capacity_))

/-- One producer/consumer operation on the ring. -/
inductive RingOp where
  | push (f : Frame)
  | pop

/-- Apply one operation, discarding the reported result. -/
def FrameRingBuffer.applyOp (rb : FrameRingBuffer) : RingOp → FrameRingBuffer
  | .push f => (rb.Push f).1
  | .pop => (rb.Pop).1

/-- Run a sequence of operations on a freshly constructed ring of the given
requested capacity. -/
def FrameRingBuffer.runOps (capacity : Nat) (ops : List RingOp) : FrameRingBuffer :=
  ops.foldl FrameRingBuffer.applyOp (FrameRingBuffer.create capacity)

/-- Run a sequence of interleaved operations, also collecting the list of
successfully pushed frames and the list of successfully popped frames, each
in operation order. -/
def FrameRingBuffer.runTrace (rb : FrameRingBuffer) :
    List RingOp → FrameRingBuffer × List Frame × List Frame
  | [] => (rb, [], [])
  | .push f :: ops =>
    let step := rb.Push f
    let rest := FrameRingBuffer.runTrace step.1 ops
    (rest.1, if step.2 then f :: rest.2.1 else rest.2.1, rest.2.2)
  | .pop :: ops =>
    let step := rb.Pop
    let rest := FrameRingBuffer.runTrace step.1 ops
    (rest.1, rest.2.1,
      match step.2 with
      | some f => f :: rest.2.2
      | none => rest.2.2)


/-! ## Pacing sink: MpegTSPlayoutSink::workerLoop per-frame decision

Embeds the timing constants and the per-frame decision section of
`MpegTSPlayoutSink::workerLoop` (MpegTSPlayoutSink.cpp): peek the oldest
frame, lazily bind the PTS mapping with the stale-first-frame guard, then
wait / emit / drop against the station-time deadline.  `int64_t`
microsecond quantities are `Int`; C++ `/` on `int64_t` is truncating
division, `Int.tdiv`. -/

/-- `kMaxLateToleranceUs = 50'000` (workerLoop). -/
def kMaxLateToleranceUs : Int := 50000

/-- `kSoftWaitThresholdUs = 5'000` (workerLoop). -/
def kSoftWaitThresholdUs : Int := 5000

/-- `kWaitFudgeUs = 500` (workerLoop). -/
def kWaitFudgeUs : Int := 500

/-- `kSameTimebaseThresholdUs = 1'000'000` (workerLoop, PTS-binding guard). -/
def kSameTimebaseThresholdUs : Int := 1000000

/-- The sink-side pacing state touched by the per-frame decision: the lazy
PTS-mapping epoch (`sink_start_time_recorded_`, `sink_start_time_utc_us_`)
and the statistics counters the decision increments. -/
structure SinkPacing where
  sink_start_time_recorded : Bool
  sink_start_time_utc_us : Int
  late_frame_drops : Nat
  frames_dropped : Nat
  late_frames : Nat
  frames_sent : Nat
deriving Repr, DecidableEq

/-- What one worker-loop iteration does with the peeked frame. -/
inductive SinkAction where
  | underflow
  | dropStaleFirstFrame (pts_usec : Int)
  | waitUntil (wake_time_us : Int)
  | dropLate (pts_usec : Int)
  | emit (pts90k : Int)
deriving Repr, DecidableEq

/-- The three counter increments performed when a frame is dropped as late
(`late_frame_drops_`, `frames_dropped_`, `late_frames_` each `fetch_add(1)`). -/
def bumpLateDrop (st : SinkPacing) : SinkPacing :=
  { st with
      late_frame_drops := st.late_frame_drops + 1
      frames_dropped := st.frames_dropped + 1
      late_frames := st.late_frames + 1 }

/-- The shared tail of the decision (workerLoop lines 396-452), reached with
`target_time_us` and `gap_us` already computed:
early (`gap < -kSoftWaitThresholdUs`) waits until `target - kWaitFudgeUs`
without popping; late (`gap > kMaxLateToleranceUs`) pops, drops and bumps
the late counters; otherwise the frame is popped and emitted with
`pts90k = pts_usec * 90000 / 1'000'000`, bumping `late_frames_` when
`gap > 0` and `frames_sent_` always.  (The pops always succeed here because
this code runs only when `Peek` returned a frame and the worker is the only
consumer.) -/
def decideGap (st : SinkPacing) (ring : FrameRingBuffer)
    (pts_usec target_time_us gap_us : Int) :
    SinkPacing × FrameRingBuffer × SinkAction :=
  if gap_us < -kSoftWaitThresholdUs then
    (st, ring, .waitUntil (target_time_us - kWaitFudgeUs))
  else if gap_us > kMaxLateToleranceUs then
    (bumpLateDrop st, (ring.Pop).1, .dropLate pts_usec)
  else
    let st1 := if gap_us > 0 then { st with late_frames := st.late_frames + 1 } else st
    ({ st1 with frames_sent := st1.frames_sent + 1 },
     (ring.Pop).1,
     .emit (Int.tdiv (pts_usec * 90000) 1000000))

/-- One worker-loop iteration's frame handling (workerLoop lines 325-452):
peek; on empty buffer report underflow; otherwise, if the PTS mapping is
bound compute `target = sink_start_time_utc_us_ + pts` and `gap = now -
target` and decide; if unbound, apply the stale-first-frame guard
(`pts_age > 0 && pts_age < kSameTimebaseThresholdUs && pts_age >
kMaxLateToleranceUs` drops the frame without binding), else bind
`sink_start_time_utc_us_ = now - pts` and fall through to the decision
(where the gap is then zero). -/
def sinkStep (st : SinkPacing) (now_us : Int) (ring : FrameRingBuffer) :
    SinkPacing × FrameRingBuffer × SinkAction :=
  match ring.Peek with
  | none => (st, ring, .underflow)
  | some next_frame =>
    let pts_usec := next_frame.metadata.pts
    if st.sink_start_time_recorded then
      let target_time_us := st.sink_start_time_utc_us + pts_usec
      decideGap st ring pts_usec target_time_us (now_us - target_time_us)
    else
      let pts_age_us := now_us - pts_usec
      if 0 < pts_age_us ∧ pts_age_us < kSameTimebaseThresholdUs ∧
          kMaxLateToleranceUs < pts_age_us then
        (bumpLateDrop st, (ring.Pop).1, .dropStaleFirstFrame pts_usec)
      else
        let st' := { st with
            sink_start_time_recorded := true
            sink_start_time_utc_us := now_us - pts_usec }
        let target_time_us := st'.sink_start_time_utc_us + pts_usec
        decideGap st' ring pts_usec target_time_us (now_us - target_time_us)

/-! ## Transport writer: TsOutputSink::Write

`TsOutputSink::Write(data, size)` (TsOutputSink.cpp lines 146-181) loops
over blocking `send(2)` calls until every byte is out or the client is
gone.  The kernel's behaviour at each `send` call is modelled as an
explicit trace of outcomes. -/

/-- Result of one `send(2)` call as classified by `TsOutputSink::Write`:
`sent n` is a return value `n >= 0` (`n = 0` means the connection closed;
a positive `n` never exceeds the number of bytes requested, which the
model enforces by clamping), `eintr` is `-1` with `errno == EINTR`,
`epipeOrReset` is `-1` with `errno` in `{EPIPE, ECONNRESET}`, and
`otherError` is `-1` with any other `errno`. -/
inductive SendOutcome where
  | sent (n : Nat)
  | eintr
  | epipeOrReset
  | otherError
deriving Repr, DecidableEq

/-- The client-connection fields of `TsOutputSink`: `client_connected_`
and `client_fd_` (`-1` when closed). -/
structure TsOutputSinkState where
  client_connected : Bool
  client_fd : Int
deriving Repr, DecidableEq

/-- `TsOutputSink::HandleClientDisconnect`: no-op when already disconnected,
otherwise closes the client socket (fd becomes `-1`) and clears
`client_connected_`. -/
def TsOutputSink.HandleClientDisconnect (st : TsOutputSinkState) : TsOutputSinkState :=
  if st.client_connected = false then st
  else { client_connected := false, client_fd := -1 }

/-- Outcome of a `Write` call: `ok` is `return true`, `failed` is
`return false`, `blocked` means the supplied send trace ended while the
loop still had bytes outstanding (a blocking `send` call still in flight,
so the C++ call has not returned yet). -/
inductive WriteResult where
  | ok
  | failed
  | blocked
deriving Repr, DecidableEq

/-- The `while (sent < size)` send loop of `TsOutputSink::Write`, driven by
a trace of `send` outcomes.  Returns the final connection state, how the
call ended, and the total byte count sent. -/
def TsOutputSink.writeLoop (st : TsOutputSinkState) (size : Nat) :
    Nat → List SendOutcome → TsOutputSinkState × WriteResult × Nat
  | sent, [] =>
    if sent < size then (st, .blocked, sent) else (st, .ok, sent)
  | sent, ev :: evs =>
    if sent < size then
      match ev with
      | .sent n =>
        if n = 0 then (TsOutputSink.HandleClientDisconnect st, .failed, sent)
        else TsOutputSink.writeLoop st size (sent + min n (size - sent)) evs
      | .eintr => TsOutputSink.writeLoop st size sent evs
      | .epipeOrReset => (TsOutputSink.HandleClientDisconnect st, .failed, sent)
      | .otherError => (TsOutputSink.HandleClientDisconnect st, .failed, sent)
    else (st, .ok, sent)

/-- `TsOutputSink::Write(data.data(), data.length)`: fails immediately when
no client is connected (or the fd is invalid); otherwise runs the send
loop from offset 0.  The third component is the byte sequence actually
delivered to the client, in order (`send` always transmits from the
current offset, so it is a prefix of `data`). -/
def TsOutputSink.Write (st : TsOutputSinkState) (data : List Nat)
    (sends : List SendOutcome) : TsOutputSinkState × WriteResult × List Nat :=
  if st.client_connected = false ∨ st.client_fd < 0 then
    (st, .failed, [])
  else
    let r := TsOutputSink.writeLoop st data.length 0 sends
    (r.1, r.2.1, data.take r.2.2)

/-! ## Sink lifecycle and shutdown padding: MpegTSPlayoutSink start/stop -/

/-- `retrovue::playout_sinks::mpegts::InternalState` (MpegTSPlayoutSink.hpp). -/
inductive InternalState where
  | Idle
  | WaitingForClient
  | Running
  | Stopped
  | Error
deriving Repr, DecidableEq

/-- The lifecycle-relevant fields of `MpegTSPlayoutSink`: the `running_`
flag and `internal_state_`. -/
structure SinkLifecycle where
  running : Bool
  internal_state : InternalState
deriving Repr, DecidableEq

/-- Freshly constructed sink: `internal_state_(InternalState::Idle)`,
`running_(false)`. -/
def SinkLifecycle.init : SinkLifecycle :=
  { running := false, internal_state := .Idle }

/-- `MpegTSPlayoutSink::start()` (lines 94-159): fails when already running
or not in `Idle`; on socket-initialization failure moves to `Error` and
fails; otherwise passes through `WaitingForClient`, spawns the threads and
ends `Running` with `running_ = true`.  `socket_ok` abstracts whether the
TCP/UDS socket setup succeeded. -/
def SinkLifecycle.start (s : SinkLifecycle) (socket_ok : Bool) :
    SinkLifecycle × Bool :=
  if s.running = true then (s, false)
  else if s.internal_state ≠ .Idle then (s, false)
  else if socket_ok = false then ({ s with internal_state := .Error }, false)
  else ({ running := true, internal_state := .Running }, true)

/-- `MpegTSPlayoutSink::stop()` state effect (lines 161-231): early-returns
when not running or already `Stopped`; otherwise joins the threads, pads,
cleans up, and ends with `running_ = false` and state `Stopped`. -/
def SinkLifecycle.stop (s : SinkLifecycle) : SinkLifecycle :=
  if s.running = false then s
  else if s.internal_state = .Stopped then s
  else { running := false, internal_state := .Stopped }

/-- Externally visible steps of `MpegTSPlayoutSink::stop()`, in order. -/
inductive StopAction where
  | joinWorkerThread
  | joinAcceptThread
  | closeEncoderPipeline
  | sendBytes (bytes : List Nat)
  | closeTransport
deriving Repr, DecidableEq

/-- The 188-byte MPEG-TS null packet built in `MpegTSPlayoutSink::stop`
(lines 194-199): sync byte `0x47`, PID bytes `0x1F 0xFF` (null-packet PID
`0x1FFF`), control byte `0x10`, and 184 zero bytes. -/
def nullTsPacket : List Nat :=
  0x47 :: 0x1F :: 0xFF :: 0x10 :: List.replicate 184 0

/-- The ordered action sequence of `MpegTSPlayoutSink::stop()` (lines
161-231): nothing when not running or already stopped; otherwise join the
worker and accept threads (which drains the loop), close the encoder,
send the null packet iff a client is connected (`client_connected_ &&
client_fd_ >= 0`), and only then close the transport. -/
def MpegTSPlayoutSink.stopActions (running : Bool) (state : InternalState)
    (client_connected : Bool) (client_fd : Int) : List StopAction :=
  if running = false then []
  else if state = .Stopped then []
  else
    [.joinWorkerThread, .joinAcceptThread, .closeEncoderPipeline] ++
      (if client_connected = true ∧ 0 ≤ client_fd then
        [.sendBytes nullTsPacket]
      else []) ++
      [.closeTransport]

/-! ## Channel lifecycle: PlayoutEngine

`runtime/PlayoutEngine.cpp` keeps a mutex-guarded map `channels_` from
channel id to per-channel state.  The map is an association list here;
`int32_t` ids are `Int`. -/

/-- Abstraction of `decode::FrameProducer` for engine-level reasoning: the
asset it decodes and the stream of frame PTS values (µs) it pushes to the
ring, in order.  `PlayoutEngine::SwitchToLive` moves the producer object
without modifying it, so this stream is carried across a switch
unchanged. -/
structure FrameProducer where
  asset_uri : String
  pts_stream : List Int
deriving Repr, DecidableEq

/-- `PlayoutEngine::ChannelState` (the fields the lifecycle claims touch;
the ring buffer, renderer and control machine are further owned resources
created exactly when a channel is inserted into the map). -/
structure ChannelState where
  channel_id : Int
  plan_handle : String
  live_producer : Option FrameProducer
  preview_producer : Option FrameProducer
deriving Repr, DecidableEq

/-- `runtime::EngineResult` (PlayoutEngine.h): success flag, message, and
the op-specific fields with their C++ default member values. -/
structure EngineResult where
  success : Bool
  message : String
  shadow_decode_started : Bool := false
  pts_contiguous : Bool := false
  live_start_pts : Nat := 0
deriving Repr, DecidableEq

/-- `channels_.erase(it)` on the association-list map. -/
def channelsErase (channels : List (Int × ChannelState)) (channel_id : Int) :
    List (Int × ChannelState) :=
  channels.filter (fun p => ¬(p.1 = channel_id))

/-- `channels_[channel_id] = std::move(state)` on the association-list map. -/
def channelsStore (channels : List (Int × ChannelState)) (channel_id : Int)
    (st : ChannelState) : List (Int × ChannelState) :=
  (channel_id, st) :: channelsErase channels channel_id

/-- `PlayoutEngine::StartChannel` (lines 98-181), channel-map view.  If the
id is already in the map it returns success with the "already started"
advisory and touches nothing.  Otherwise the construction and start-up of
the channel's resources (ring buffer, control machine, producer, renderer,
buffer-depth wait; lines 110-172) either yields a ready `ChannelState`
that is stored, or fails before the channel is stored; that outcome is
abstracted by the `built` argument, and the several early-failure
messages by `fail_message`. -/
def PlayoutEngine.StartChannel (channels : List (Int × ChannelState))
    (channel_id : Int) (built : Option ChannelState) (fail_message : String) :
    List (Int × ChannelState) × EngineResult :=
  if (channels.lookup channel_id).isSome then
    (channels,
     { success := true
       message := "Channel " ++ toString channel_id ++ " already started" })
  else
    match built with
    | some st =>
      (channelsStore channels channel_id st,
       { success := true
         message := "Channel " ++ toString channel_id ++ " started successfully" })
    | none => (channels, { success := false, message := fail_message })

/-- `PlayoutEngine::StopChannel` (lines 183-248): a channel id absent from
the map returns failure "not found" with no side effect; a present channel
is torn down and erased, returning success. -/
def PlayoutEngine.StopChannel (channels : List (Int × ChannelState))
    (channel_id : Int) : List (Int × ChannelState) × EngineResult :=
  match channels.lookup channel_id with
  | none =>
    (channels,
     { success := false
       message := "Channel " ++ toString channel_id ++ " not found" })
  | some _ =>
    (channelsErase channels channel_id,
     { success := true
       message := "Channel " ++ toString channel_id ++ " stopped successfully" })

/-- `PlayoutEngine::SwitchToLive` (lines 292-333): requires the channel and
a loaded preview producer; stops the old live producer, moves the preview
producer into the live slot *unchanged* (no PTS rebase), resets the
preview slot, and returns success with `pts_contiguous = true` and
`live_start_pts = 0` hard-coded (the source comments read "Simplified -
would check actual PTS continuity" and "Would get from
producer/renderer"). -/
def PlayoutEngine.SwitchToLive (channels : List (Int × ChannelState))
    (channel_id : Int) : List (Int × ChannelState) × EngineResult :=
  match channels.lookup channel_id with
  | none =>
    (channels,
     { success := false
       message := "Channel " ++ toString channel_id ++ " not found" })
  | some st =>
    match st.preview_producer with
    | none =>
      (channels,
       { success := false
         message := "No preview producer loaded for channel " ++
           toString channel_id })
    | some preview =>
      let st' := { st with
          live_producer := some preview
          preview_producer := none }
      (channelsStore channels channel_id st',
       { success := true
         message := "Switched to live for channel " ++ toString channel_id
         pts_contiguous := true
         live_start_pts := 0 })

/-! ## Concrete inputs used to instantiate the theorems -/

/-- A minimal decoded frame with the given PTS (µs). -/
def demoFrame (pts : Int) : Frame :=
  { metadata := { pts := pts, dts := pts, duration := 0, asset_uri := "demo" }
    data := []
    width := 640
    height := 480 }

/-- Sink pacing state with the PTS mapping bound at station epoch 1000000 µs. -/
def c1State : SinkPacing :=
  { sink_start_time_recorded := true
    sink_start_time_utc_us := 1000000
    late_frame_drops := 0
    frames_dropped := 0
    late_frames := 0
    frames_sent := 0 }

/-- A ring holding one frame with PTS 100000 µs. -/
def c1Ring : FrameRingBuffer :=
  ((FrameRingBuffer.create 8).Push (demoFrame 100000)).1

/-- Sink pacing state before the PTS mapping is bound. -/
def c2State : SinkPacing :=
  { sink_start_time_recorded := false
    sink_start_time_utc_us := 0
    late_frame_drops := 0
    frames_dropped := 0
    late_frames := 0
    frames_sent := 0 }

/-- A ring holding one frame with PTS 0. -/
def c2Ring : FrameRingBuffer :=
  ((FrameRingBuffer.create 8).Push (demoFrame 0)).1

/-- Two pushes followed by two pops: a drained producer/consumer episode. -/
def fifoDemoOps : List RingOp :=
  [.push (demoFrame 0), .push (demoFrame 33333), .pop, .pop]

/-- Channel map with one channel whose live producer is playing asset A
(its stream so far ended at PTS 33333 µs; at 30 fps the next contiguous
PTS would be 33333 + 33333 = 66666) and whose preview producer is loaded
with asset B, a stream starting at PTS 0. -/
def switchDemoChannels : List (Int × ChannelState) :=
  [(1,
    { channel_id := 1
      plan_handle := "assetA"
      live_producer := some { asset_uri := "assetA", pts_stream := [0, 33333] }
      preview_producer :=
        some { asset_uri := "assetB", pts_stream := [0, 33333, 66666] } })]

/-- A started channel record for the idempotency witness. -/
def demoChannelState : ChannelState :=
  { channel_id := 1
    plan_handle := "assetA"
    live_producer := some { asset_uri := "assetA", pts_stream := [0] }
    preview_producer := none }

/-- A connected transport-writer state (fd 3). -/
def connectedWriter : TsOutputSinkState :=
  { client_connected := true, client_fd := 3 }

/-- A disconnected transport-writer state. -/
def disconnectedWriter : TsOutputSinkState :=
  { client_connected := false, client_fd := -1 }

/-! ## Ring buffer lemmas -/

namespace FrameRingBuffer

theorem wf_create (capacity : Nat) : (create capacity).WF := by
  refine ⟨Nat.succ_pos _, ?_, ?_⟩ <;> simp [create]

theorem wf_push (rb : FrameRingBuffer) (f : Frame) (h : rb.WF) :
    (rb.Push f).1.WF := by
  obtain ⟨hc, hw, hr⟩ := h
  unfold Push
  by_cases hfull : (rb.write_index_ + 1) % rb.capacity_ = rb.read_index_
  · simp only [hfull, if_pos rfl]
    exact ⟨hc, hw, hr⟩
  · simp only [if_neg hfull]
    exact ⟨hc, Nat.mod_lt _ hc, hr⟩

theorem wf_pop (rb : FrameRingBuffer) (h : rb.WF) : (rb.Pop).1.WF := by
  obtain ⟨hc, hw, hr⟩ := h
  unfold Pop
  by_cases hempty : rb.read_index_ = rb.write_index_
  · simp only [if_pos hempty]
    exact ⟨hc, hw, hr⟩
  · simp only [if_neg hempty]
    exact ⟨hc, hw, Nat.mod_lt _ hc⟩

theorem size_lt_capacity (rb : FrameRingBuffer) (h : rb.WF) :
    rb.Size < rb.capacity_ := by
  obtain ⟨hc, hw, hr⟩ := h
  unfold Size
  by_cases hle : rb.read_index_ ≤ rb.write_index_
  · simp only [if_pos hle]; omega
  · simp only [if_neg hle]; omega

theorem size_le_capacity (rb : FrameRingBuffer) (h : rb.WF) :
    rb.Size ≤ rb.Capacity :=
  Nat.le_of_lt (size_lt_capacity rb h)

theorem read_add_size (rb : FrameRingBuffer) (h : rb.WF) :
    (rb.read_index_ + rb.Size) % rb.capacity_ = rb.write_index_ := by
  obtain ⟨hc, hw, hr⟩ := h
  unfold Size
  by_cases hle : rb.read_index_ ≤ rb.write_index_
  · simp only [if_pos hle]
    rw [Nat.add_sub_cancel' hle]
    exact Nat.mod_eq_of_lt hw
  · simp only [if_neg hle]
    have hdiff : rb.read_index_ - rb.write_index_ ≤ rb.capacity_ := by omega
    have hsum : rb.read_index_ + (rb.capacity_ - (rb.read_index_ - rb.write_index_)) =
        rb.capacity_ + rb.write_index_ := by omega
    rw [hsum, Nat.add_mod_left]
    exact Nat.mod_eq_of_lt hw

theorem push_eq_of_full (rb : FrameRingBuffer) (f : Frame)
    (hfull : (rb.write_index_ + 1) % rb.capacity_ = rb.read_index_) :
    rb.Push f = (rb, false) := by
  unfold Push
  simp [hfull]

theorem push_eq_of_not_full (rb : FrameRingBuffer) (f : Frame)
    (hfull : (rb.write_index_ + 1) % rb.capacity_ ≠ rb.read_index_) :
    rb.Push f =
      ({ rb with
          buffer_ := fun i => if i = rb.write_index_ then f else rb.buffer_ i
          write_index_ := (rb.write_index_ + 1) % rb.capacity_ }, true) := by
  unfold Push
  simp only [if_neg hfull]

theorem pop_eq_of_empty (rb : FrameRingBuffer)
    (hempty : rb.read_index_ = rb.write_index_) :
    rb.Pop = (rb, none) := by
  unfold Pop
  simp [hempty]

theorem pop_eq_of_not_empty (rb : FrameRingBuffer)
    (hne : rb.read_index_ ≠ rb.write_index_) :
    rb.Pop =
      ({ rb with read_index_ := (rb.read_index_ + 1) % rb.capacity_ },
       some (rb.buffer_ rb.read_index_)) := by
  unfold Pop
  simp only [if_neg hne]

theorem size_push (rb : FrameRingBuffer) (f : Frame) (h : rb.WF)
    (hfull : (rb.write_index_ + 1) % rb.capacity_ ≠ rb.read_index_) :
    ((rb.Push f).1).Size = rb.Size + 1 := by
  obtain ⟨hc, hw, hr⟩ := h
  rw [push_eq_of_not_full rb f hfull]
  unfold Size
  simp only
  rcases Nat.lt_or_ge (rb.write_index_ + 1) rb.capacity_ with hlt | hge
  · rw [Nat.mod_eq_of_lt hlt] at hfull ⊢
    split_ifs <;> omega
  · have heq : rb.write_index_ + 1 = rb.capacity_ := by omega
    rw [heq, Nat.mod_self] at hfull ⊢
    split_ifs <;> omega

theorem size_pop (rb : FrameRingBuffer) (h : rb.WF)
    (hne : rb.read_index_ ≠ rb.write_index_) :
    rb.Size = ((rb.Pop).1).Size + 1 := by
  obtain ⟨hc, hw, hr⟩ := h
  rw [pop_eq_of_not_empty rb hne]
  unfold Size
  simp only
  rcases Nat.lt_or_ge (rb.read_index_ + 1) rb.capacity_ with hlt | hge
  · rw [Nat.mod_eq_of_lt hlt]
    split_ifs <;> omega
  · have heq : rb.read_index_ + 1 = rb.capacity_ := by omega
    rw [heq, Nat.mod_self]
    split_ifs <;> omega

theorem contents_push (rb : FrameRingBuffer) (f : Frame) (h : rb.WF)
    (hfull : (rb.write_index_ + 1) % rb.capacity_ ≠ rb.read_index_) :
    ((rb.Push f).1).contents = rb.contents ++ [f] := by
  have hsz := size_push rb f h hfull
  have hslt := size_lt_capacity rb h
  have hras := read_add_size rb h
  obtain ⟨hc, hw, hr⟩ := h
  have hrd : (rb.Push f).1.read_index_ = rb.read_index_ := by
    rw [push_eq_of_not_full rb f hfull]
  have hcap2 : (rb.Push f).1.capacity_ = rb.capacity_ := by
    rw [push_eq_of_not_full rb f hfull]
  have hbuf : (rb.Push f).1.buffer_ =
      fun i => if i = rb.write_index_ then f else rb.buffer_ i := by
    rw [push_eq_of_not_full rb f hfull]
  unfold contents
  rw [hsz, hrd, hcap2, hbuf, List.range_succ, List.map_append]
  congr 1
  · apply List.map_congr_left
    intro i hi
    have hi' : i < rb.Size := List.mem_range.mp hi
    have hneq : (rb.read_index_ + i) % rb.capacity_ ≠ rb.write_index_ := by
      intro hcontra
      have h2 : (rb.read_index_ + i) % rb.capacity_ =
          (rb.read_index_ + rb.Size) % rb.capacity_ := by
        rw [hcontra, hras]
      have hmod : i % rb.capacity_ = rb.Size % rb.capacity_ :=
        Nat.ModEq.add_left_cancel' rb.read_index_ h2
      rw [Nat.mod_eq_of_lt (lt_trans hi' hslt), Nat.mod_eq_of_lt hslt] at hmod
      omega
    simp only [if_neg hneq]
  · simp [hras]

theorem contents_pop (rb : FrameRingBuffer) (h : rb.WF)
    (hne : rb.read_index_ ≠ rb.write_index_) :
    rb.contents = rb.buffer_ rb.read_index_ :: ((rb.Pop).1).contents := by
  have hsz := size_pop rb h hne
  obtain ⟨hc, hw, hr⟩ := h
  have hrd : (rb.Pop).1.read_index_ = (rb.read_index_ + 1) % rb.capacity_ := by
    rw [pop_eq_of_not_empty rb hne]
  have hcap2 : (rb.Pop).1.capacity_ = rb.capacity_ := by
    rw [pop_eq_of_not_empty rb hne]
  have hbuf : (rb.Pop).1.buffer_ = rb.buffer_ := by
    rw [pop_eq_of_not_empty rb hne]
  unfold contents
  rw [hsz, hrd, hcap2, hbuf, List.range_succ_eq_map, List.map_cons, List.map_map]
  congr 1
  · simp only [Nat.add_zero, Nat.mod_eq_of_lt hr]
  · apply List.map_congr_left
    intro i _
    simp only [Function.comp_apply, Nat.mod_add_mod]
    have harg : rb.read_index_ + Nat.succ i = rb.read_index_ + 1 + i := by omega
    rw [harg]

theorem contents_create (capacity : Nat) : (create capacity).contents = [] := by
  unfold contents create Size
  simp

theorem contents_of_isEmpty (rb : FrameRingBuffer) (h : rb.IsEmpty = true) :
    rb.contents = [] := by
  have heq : rb.read_index_ = rb.write_index_ := by
    simpa [IsEmpty] using h
  unfold contents Size
  simp [heq]

theorem runTrace_push_cons (rb : FrameRingBuffer) (f : Frame) (ops : List RingOp) :
    rb.runTrace (.push f :: ops) =
      (((rb.Push f).1.runTrace ops).1,
       (if (rb.Push f).2 then
          f :: ((rb.Push f).1.runTrace ops).2.1
        else
          ((rb.Push f).1.runTrace ops).2.1),
       ((rb.Push f).1.runTrace ops).2.2) := rfl

theorem runTrace_pop_cons (rb : FrameRingBuffer) (ops : List RingOp) :
    rb.runTrace (.pop :: ops) =
      (((rb.Pop).1.runTrace ops).1,
       ((rb.Pop).1.runTrace ops).2.1,
       (match (rb.Pop).2 with
        | some f => f :: ((rb.Pop).1.runTrace ops).2.2
        | none => ((rb.Pop).1.runTrace ops).2.2)) := rfl

theorem runTrace_fifo_invariant (ops : List RingOp) :
    ∀ rb : FrameRingBuffer, rb.WF →
      rb.contents ++ (rb.runTrace ops).2.1 =
        (rb.runTrace ops).2.2 ++ ((rb.runTrace ops).1).contents := by
  induction ops with
  | nil =>
    intro rb _
    simp [runTrace]
  | cons op ops ih =>
    intro rb h
    cases op with
    | push f =>
      rw [runTrace_push_cons]
      by_cases hfull : (rb.write_index_ + 1) % rb.capacity_ = rb.read_index_
      · have h1 : (rb.Push f).1 = rb := by rw [push_eq_of_full rb f hfull]
        have h2 : (rb.Push f).2 = false := by rw [push_eq_of_full rb f hfull]
        rw [h2, h1]
        simp only [Bool.false_eq_true, if_false]
        exact ih rb h
      · have h2 : (rb.Push f).2 = true := by rw [push_eq_of_not_full rb f hfull]
        have hwf' := wf_push rb f h
        have hcont := contents_push rb f h hfull
        have ih' := ih (rb.Push f).1 hwf'
        rw [h2]
        simp only [eq_self_iff_true, if_true]
        calc rb.contents ++ f :: ((rb.Push f).1.runTrace ops).2.1
            = (rb.contents ++ [f]) ++ ((rb.Push f).1.runTrace ops).2.1 := by simp
          _ = (rb.Push f).1.contents ++ ((rb.Push f).1.runTrace ops).2.1 := by
              rw [hcont]
          _ = ((rb.Push f).1.runTrace ops).2.2 ++
                (((rb.Push f).1.runTrace ops).1).contents := ih'
    | pop =>
      rw [runTrace_pop_cons]
      by_cases hempty : rb.read_index_ = rb.write_index_
      · have h1 : (rb.Pop).1 = rb := by rw [pop_eq_of_empty rb hempty]
        have h2 : (rb.Pop).2 = none := by rw [pop_eq_of_empty rb hempty]
        rw [h2, h1]
        exact ih rb h
      · have h2 : (rb.Pop).2 = some (rb.buffer_ rb.read_index_) := by
          rw [pop_eq_of_not_empty rb hempty]
        have hwf' := wf_pop rb h
        have hcont := contents_pop rb h hempty
        have ih' := ih (rb.Pop).1 hwf'
        rw [h2]
        simp only
        rw [hcont, List.cons_append, List.cons_append, ih']

theorem wf_applyOp (rb : FrameRingBuffer) (op : RingOp) (h : rb.WF) :
    (rb.applyOp op).WF := by
  cases op with
  | push f => exact wf_push rb f h
  | pop => exact wf_pop rb h

theorem wf_foldl (ops : List RingOp) :
    ∀ rb : FrameRingBuffer, rb.WF → (ops.foldl applyOp rb).WF := by
  induction ops with
  | nil => intro rb h; exact h
  | cons op ops ih =>
    intro rb h
    exact ih (rb.applyOp op) (wf_applyOp rb op h)

theorem wf_runOps (capacity : Nat) (ops : List RingOp) :
    (runOps capacity ops).WF :=
  wf_foldl ops (create capacity) (wf_create capacity)

theorem runTrace_wf (ops : List RingOp) :
    ∀ rb : FrameRingBuffer, rb.WF → ((rb.runTrace ops).1).WF := by
  induction ops with
  | nil => intro rb h; exact h
  | cons op ops ih =>
    intro rb h
    cases op with
    | push f =>
      rw [runTrace_push_cons]
      exact ih (rb.Push f).1 (wf_push rb f h)
    | pop =>
      rw [runTrace_pop_cons]
      exact ih (rb.Pop).1 (wf_pop rb h)

end FrameRingBuffer

/-! ## Claim theorems -/

/-- C5: Ring occupancy invariant.  After every sequence of `Push`/`Pop`
operations on a freshly constructed `FrameRingBuffer`,
`0 ≤ Size() ≤ Capacity()` holds; `Push` on a full ring returns false and
leaves the indices and stored frames unchanged; `Pop` on an empty ring
returns false and leaves the indices and stored frames unchanged. -/
theorem ring_occupancy_invariant (capacity : Nat) (ops : List RingOp) (f : Frame) :
    (0 ≤ (FrameRingBuffer.runOps capacity ops).Size ∧
      (FrameRingBuffer.runOps capacity ops).Size ≤
        (FrameRingBuffer.runOps capacity ops).Capacity) ∧
    ((FrameRingBuffer.runOps capacity ops).IsFull = true →
      (FrameRingBuffer.runOps capacity ops).Push f =
        (FrameRingBuffer.runOps capacity ops, false)) ∧
    ((FrameRingBuffer.runOps capacity ops).IsEmpty = true →
      (FrameRingBuffer.runOps capacity ops).Pop =
        (FrameRingBuffer.runOps capacity ops, none)) := by
  have hwf := FrameRingBuffer.wf_runOps capacity ops
  refine ⟨⟨Nat.zero_le _, FrameRingBuffer.size_le_capacity _ hwf⟩, ?_, ?_⟩
  · intro hfull
    have h : ((FrameRingBuffer.runOps capacity ops).write_index_ + 1) %
        (FrameRingBuffer.runOps capacity ops).capacity_ =
        (FrameRingBuffer.runOps capacity ops).read_index_ := by
      simpa [FrameRingBuffer.IsFull] using hfull
    exact FrameRingBuffer.push_eq_of_full _ f h
  · intro hempty
    have h : (FrameRingBuffer.runOps capacity ops).read_index_ =
        (FrameRingBuffer.runOps capacity ops).write_index_ := by
      simpa [FrameRingBuffer.IsEmpty] using hempty
    exact FrameRingBuffer.pop_eq_of_empty _ h

/-- Witness for C5 at requested capacity 1 after one successful push: the
ring is full, so the failing-push clause fires; the occupancy bound holds. -/
theorem ring_occupancy_invariant_witness :
    (FrameRingBuffer.runOps 1 [.push (demoFrame 0)]).IsFull = true ∧
    ((0 ≤ (FrameRingBuffer.runOps 1 [.push (demoFrame 0)]).Size ∧
      (FrameRingBuffer.runOps 1 [.push (demoFrame 0)]).Size ≤
        (FrameRingBuffer.runOps 1 [.push (demoFrame 0)]).Capacity) ∧
     (FrameRingBuffer.runOps 1 [.push (demoFrame 0)]).Push (demoFrame 1) =
        (FrameRingBuffer.runOps 1 [.push (demoFrame 0)], false)) := by
  have h := ring_occupancy_invariant 1 [.push (demoFrame 0)] (demoFrame 1)
  exact ⟨rfl, h.1, h.2.1 rfl⟩

/-- C6 (code bug): a `FrameRingBuffer` constructed with requested capacity
`N = 10` allocates `N + 1 = 11` slots, but `Capacity()` returns the slot
count `capacity_`, i.e. 11 rather than the requested 10 — contradicting
the unit test `FrameRingBufferTest.Construction`, which expects
`buffer.Capacity() == 10` for `FrameRingBuffer buffer(10)`. -/
theorem capacity_reports_slot_count :
    (FrameRingBuffer.create 10).capacity_ = 10 + 1 ∧
    (FrameRingBuffer.create 10).Capacity = 11 ∧
    (FrameRingBuffer.create 10).Capacity ≠ 10 := by
  refine ⟨rfl, rfl, by decide⟩

/-- C7: FIFO delivery.  For every sequence of interleaved `Push`/`Pop`
operations on a fresh ring, the successful pushes equal the successful
pops followed by the frames still buffered (so pops happen in push order
and nothing is duplicated or lost); when the run ends with an empty ring,
the pops are exactly the pushes. -/
theorem ring_fifo_delivery (capacity : Nat) (ops : List RingOp) :
    ((FrameRingBuffer.create capacity).runTrace ops).2.1 =
      ((FrameRingBuffer.create capacity).runTrace ops).2.2 ++
        (((FrameRingBuffer.create capacity).runTrace ops).1).contents ∧
    ((((FrameRingBuffer.create capacity).runTrace ops).1).IsEmpty = true →
      ((FrameRingBuffer.create capacity).runTrace ops).2.1 =
        ((FrameRingBuffer.create capacity).runTrace ops).2.2) := by
  have hinv := FrameRingBuffer.runTrace_fifo_invariant ops
    (FrameRingBuffer.create capacity) (FrameRingBuffer.wf_create capacity)
  rw [FrameRingBuffer.contents_create, List.nil_append] at hinv
  refine ⟨hinv, ?_⟩
  intro hempty
  rw [hinv, FrameRingBuffer.contents_of_isEmpty _ hempty, List.append_nil]

/-- Witness for C7: two pushes then two pops on a capacity-2 ring drain it,
and the popped frames equal the pushed frames in order. -/
theorem ring_fifo_delivery_witness :
    (((FrameRingBuffer.create 2).runTrace fifoDemoOps).1).IsEmpty = true ∧
    ((FrameRingBuffer.create 2).runTrace fifoDemoOps).2.1 =
      ((FrameRingBuffer.create 2).runTrace fifoDemoOps).2.2 := by
  have h := ring_fifo_delivery 2 fifoDemoOps
  exact ⟨rfl, h.2 rfl⟩

/-- C1: per-frame pacing decision once the PTS mapping is bound.  For the
frame peeked at the head of the ring, with
`deadline = sink_start_time_utc_us + pts` and `gap = now - deadline`:
`gap < -kSoftWaitThresholdUs` leaves the frame unpopped and waits until
`deadline - kWaitFudgeUs` (the loop then re-evaluates);
`-kSoftWaitThresholdUs ≤ gap ≤ kMaxLateToleranceUs` pops the frame and
emits it with `pts90k = pts * 90000 / 1000000`;
`gap > kMaxLateToleranceUs` pops and drops the frame, incrementing
`late_frame_drops_`, `frames_dropped_` and `late_frames_`. -/
theorem worker_loop_bound_decision (st : SinkPacing) (now_us : Int)
    (ring : FrameRingBuffer) (f : Frame) (hpeek : ring.Peek = some f)
    (hbound : st.sink_start_time_recorded = true) :
    (now_us - (st.sink_start_time_utc_us + f.metadata.pts) <
        -kSoftWaitThresholdUs →
      sinkStep st now_us ring =
        (st, ring,
         .waitUntil (st.sink_start_time_utc_us + f.metadata.pts -
           kWaitFudgeUs))) ∧
    (-kSoftWaitThresholdUs ≤
        now_us - (st.sink_start_time_utc_us + f.metadata.pts) →
      now_us - (st.sink_start_time_utc_us + f.metadata.pts) ≤
        kMaxLateToleranceUs →
      (sinkStep st now_us ring).2.1 = (ring.Pop).1 ∧
      (sinkStep st now_us ring).2.2 =
        .emit (Int.tdiv (f.metadata.pts * 90000) 1000000)) ∧
    (kMaxLateToleranceUs <
        now_us - (st.sink_start_time_utc_us + f.metadata.pts) →
      sinkStep st now_us ring =
        (bumpLateDrop st, (ring.Pop).1, .dropLate f.metadata.pts)) := by
  have hstep : sinkStep st now_us ring =
      decideGap st ring f.metadata.pts
        (st.sink_start_time_utc_us + f.metadata.pts)
        (now_us - (st.sink_start_time_utc_us + f.metadata.pts)) := by
    unfold sinkStep
    simp only [hpeek, hbound, if_true]
  rw [hstep]
  refine ⟨?_, ?_, ?_⟩
  · intro hearly
    unfold decideGap
    rw [if_pos hearly]
  · intro h1 h2
    unfold decideGap
    rw [if_neg (by unfold kSoftWaitThresholdUs at h1 ⊢; omega),
        if_neg (by unfold kMaxLateToleranceUs at h2 ⊢; omega)]
    exact ⟨rfl, rfl⟩
  · intro hlate
    unfold decideGap
    rw [if_neg (by unfold kMaxLateToleranceUs at hlate; unfold kSoftWaitThresholdUs; omega),
        if_pos hlate]

/-- Witness for C1: bound state with epoch 1000000 µs and head frame PTS
100000 µs evaluated at station time 1100000 µs (gap 0): the frame is
popped and emitted with `pts90k = 9000`. -/
theorem worker_loop_bound_decision_witness :
    c1Ring.Peek = some (demoFrame 100000) ∧
    c1State.sink_start_time_recorded = true ∧
    (sinkStep c1State 1100000 c1Ring).2.1 = (c1Ring.Pop).1 ∧
    (sinkStep c1State 1100000 c1Ring).2.2 = SinkAction.emit 9000 := by
  have h := worker_loop_bound_decision c1State 1100000 c1Ring
    (demoFrame 100000) rfl rfl
  have h2 := h.2.1 (by decide) (by decide)
  refine ⟨rfl, rfl, h2.1, ?_⟩
  rw [h2.2]
  decide

/-- C2: stale-first-frame guard and lazy epoch binding.  Before the PTS
mapping is bound, a peeked first frame with
`now - pts` strictly inside `(kMaxLateToleranceUs,
kSameTimebaseThresholdUs)` is popped and dropped as late (late counters
bumped) and the mapping stays unbound; any first frame outside that range
binds `sink_start_time_utc_us = now - pts`, so its deadline
`sink_start_time_utc_us + pts` resolves exactly to the current station
time. -/
theorem stale_first_frame_guard (st : SinkPacing) (now_us : Int)
    (ring : FrameRingBuffer) (f : Frame) (hpeek : ring.Peek = some f)
    (hunbound : st.sink_start_time_recorded = false) :
    (kMaxLateToleranceUs < now_us - f.metadata.pts →
      now_us - f.metadata.pts < kSameTimebaseThresholdUs →
      sinkStep st now_us ring =
        (bumpLateDrop st, (ring.Pop).1,
         .dropStaleFirstFrame f.metadata.pts) ∧
      (bumpLateDrop st).sink_start_time_recorded = false) ∧
    (¬(kMaxLateToleranceUs < now_us - f.metadata.pts ∧
        now_us - f.metadata.pts < kSameTimebaseThresholdUs) →
      (sinkStep st now_us ring).1.sink_start_time_recorded = true ∧
      (sinkStep st now_us ring).1.sink_start_time_utc_us =
        now_us - f.metadata.pts ∧
      (sinkStep st now_us ring).1.sink_start_time_utc_us +
        f.metadata.pts = now_us) := by
  have hstep : sinkStep st now_us ring =
      (if 0 < now_us - f.metadata.pts ∧
          now_us - f.metadata.pts < kSameTimebaseThresholdUs ∧
          kMaxLateToleranceUs < now_us - f.metadata.pts then
        (bumpLateDrop st, (ring.Pop).1, .dropStaleFirstFrame f.metadata.pts)
      else
        decideGap
          { st with
              sink_start_time_recorded := true
              sink_start_time_utc_us := now_us - f.metadata.pts }
          ring f.metadata.pts
          ((now_us - f.metadata.pts) + f.metadata.pts)
          (now_us - ((now_us - f.metadata.pts) + f.metadata.pts))) := by
    unfold sinkStep
    simp only [hpeek, hunbound, Bool.false_eq_true, if_false]
  rw [hstep]
  constructor
  · intro h1 h2
    rw [if_pos ⟨by unfold kMaxLateToleranceUs at h1; omega, h2, h1⟩]
    exact ⟨rfl, by simp [bumpLateDrop, hunbound]⟩
  · intro hnot
    rw [if_neg (fun hcond => hnot ⟨hcond.2.2, hcond.2.1⟩)]
    have hgap : now_us - ((now_us - f.metadata.pts) + f.metadata.pts) = 0 := by
      ring
    rw [hgap]
    unfold decideGap
    rw [if_neg (by unfold kSoftWaitThresholdUs; omega),
        if_neg (by unfold kMaxLateToleranceUs; omega),
        if_neg (by omega : ¬((0 : Int) > 0))]
    refine ⟨rfl, rfl, ?_⟩
    show (now_us - f.metadata.pts) + f.metadata.pts = now_us
    omega

/-- Witness for C2, stale branch: unbound state, head frame PTS 0 observed
at station time 100000 µs (`pts_age = 100000 ∈ (50000, 1000000)`): the
frame is popped and dropped, and the mapping stays unbound. -/
theorem stale_first_frame_guard_witness :
    c2Ring.Peek = some (demoFrame 0) ∧
    c2State.sink_start_time_recorded = false ∧
    sinkStep c2State 100000 c2Ring =
      (bumpLateDrop c2State, (c2Ring.Pop).1,
       SinkAction.dropStaleFirstFrame 0) ∧
    (bumpLateDrop c2State).sink_start_time_recorded = false := by
  have h := stale_first_frame_guard c2State 100000 c2Ring (demoFrame 0) rfl rfl
  have h1 := h.1 (by decide) (by decide)
  exact ⟨rfl, rfl, h1.1, h1.2⟩

theorem TsOutputSink.handleClientDisconnect_fields (st : TsOutputSinkState)
    (hconn : st.client_connected = true) :
    (TsOutputSink.HandleClientDisconnect st).client_connected = false ∧
    (TsOutputSink.HandleClientDisconnect st).client_fd = -1 := by
  unfold TsOutputSink.HandleClientDisconnect
  rw [if_neg (by simp [hconn])]
  exact ⟨rfl, rfl⟩

theorem TsOutputSink.writeLoop_ok_total (size : Nat) (evs : List SendOutcome) :
    ∀ (st : TsOutputSinkState) (sent : Nat) (st' : TsOutputSinkState) (out : Nat),
      sent ≤ size →
      TsOutputSink.writeLoop st size sent evs = (st', .ok, out) → out = size := by
  induction evs with
  | nil =>
    intro st sent st' out hle h
    by_cases hlt : sent < size
    · simp [TsOutputSink.writeLoop, hlt] at h
    · simp [TsOutputSink.writeLoop, hlt] at h
      omega
  | cons ev evs ih =>
    intro st sent st' out hle h
    by_cases hlt : sent < size
    · cases ev with
      | sent n =>
        by_cases hn : n = 0
        · simp [TsOutputSink.writeLoop, hlt, hn] at h
        · simp only [TsOutputSink.writeLoop, if_pos hlt, if_neg hn] at h
          exact ih st _ st' out (by omega) h
      | eintr =>
        simp only [TsOutputSink.writeLoop, if_pos hlt] at h
        exact ih st sent st' out hle h
      | epipeOrReset => simp [TsOutputSink.writeLoop, hlt] at h
      | otherError => simp [TsOutputSink.writeLoop, hlt] at h
    · simp [TsOutputSink.writeLoop, hlt] at h
      omega

theorem TsOutputSink.writeLoop_failed_disconnects (size : Nat)
    (evs : List SendOutcome) :
    ∀ (st : TsOutputSinkState) (sent : Nat) (st' : TsOutputSinkState) (out : Nat),
      st.client_connected = true →
      TsOutputSink.writeLoop st size sent evs = (st', .failed, out) →
      st'.client_connected = false ∧ st'.client_fd = -1 := by
  induction evs with
  | nil =>
    intro st sent st' out hconn h
    by_cases hlt : sent < size
    · simp [TsOutputSink.writeLoop, hlt] at h
    · simp [TsOutputSink.writeLoop, hlt] at h
  | cons ev evs ih =>
    intro st sent st' out hconn h
    by_cases hlt : sent < size
    · cases ev with
      | sent n =>
        by_cases hn : n = 0
        · simp only [TsOutputSink.writeLoop, if_pos hlt, hn, if_pos rfl] at h
          injection h with h1 h2
          subst h1
          exact TsOutputSink.handleClientDisconnect_fields st hconn
        · simp only [TsOutputSink.writeLoop, if_pos hlt, if_neg hn] at h
          exact ih st _ st' out hconn h
      | eintr =>
        simp only [TsOutputSink.writeLoop, if_pos hlt] at h
        exact ih st sent st' out hconn h
      | epipeOrReset =>
        simp only [TsOutputSink.writeLoop, if_pos hlt] at h
        injection h with h1 h2
        subst h1
        exact TsOutputSink.handleClientDisconnect_fields st hconn
      | otherError =>
        simp only [TsOutputSink.writeLoop, if_pos hlt] at h
        injection h with h1 h2
        subst h1
        exact TsOutputSink.handleClientDisconnect_fields st hconn
    · simp [TsOutputSink.writeLoop, hlt] at h

theorem TsOutputSink.writeLoop_eintr (st : TsOutputSinkState) (size sent : Nat)
    (evs : List SendOutcome) :
    TsOutputSink.writeLoop st size sent (.eintr :: evs) =
      TsOutputSink.writeLoop st size sent evs := by
  by_cases hlt : sent < size
  · simp only [TsOutputSink.writeLoop, if_pos hlt]
  · cases evs with
    | nil => simp only [TsOutputSink.writeLoop, if_neg hlt]
    | cons e es => simp only [TsOutputSink.writeLoop, if_neg hlt]

/-- C8: whole-buffer transport writes (`TsOutputSink::Write`).  (1) with no
client connected the call fails immediately without consuming any send
call; (2) the call reports success only if every byte of the buffer was
delivered in order (the delivered prefix equals the whole buffer);
(3) on a send error indicating the client is gone the writer closes the
client (fd -1), marks itself disconnected and returns failure;
(4) an interrupted send (EINTR) is retried transparently: the call behaves
exactly as if the interruption had not happened. -/
theorem tsOutputSink_write_contract :
    (∀ (st : TsOutputSinkState) (data : List Nat) (sends : List SendOutcome),
      st.client_connected = false →
      TsOutputSink.Write st data sends = (st, .failed, [])) ∧
    (∀ (st : TsOutputSinkState) (data : List Nat) (sends : List SendOutcome)
        (st' : TsOutputSinkState) (delivered : List Nat),
      TsOutputSink.Write st data sends = (st', .ok, delivered) →
      delivered = data) ∧
    (∀ (st : TsOutputSinkState) (data : List Nat) (sends : List SendOutcome)
        (st' : TsOutputSinkState) (delivered : List Nat),
      st.client_connected = true → 0 ≤ st.client_fd →
      TsOutputSink.Write st data sends = (st', .failed, delivered) →
      st'.client_connected = false ∧ st'.client_fd = -1) ∧
    (∀ (st : TsOutputSinkState) (data : List Nat) (sends : List SendOutcome),
      TsOutputSink.Write st data (.eintr :: sends) =
        TsOutputSink.Write st data sends) := by
  refine ⟨?_, ?_, ?_, ?_⟩
  · intro st data sends hdis
    unfold TsOutputSink.Write
    rw [if_pos (Or.inl hdis)]
  · intro st data sends st' delivered h
    unfold TsOutputSink.Write at h
    by_cases hcond : st.client_connected = false ∨ st.client_fd < 0
    · rw [if_pos hcond] at h
      exact absurd h (by simp)
    · rw [if_neg hcond] at h
      rcases hr : TsOutputSink.writeLoop st data.length 0 sends with ⟨s1, w1, n1⟩
      rw [hr] at h
      simp only at h
      injection h with h1 h2
      injection h2 with h3 h4
      subst h3
      have htot := TsOutputSink.writeLoop_ok_total data.length sends st 0 s1 n1
        (Nat.zero_le _) hr
      rw [← h4, htot, List.take_length]
  · intro st data sends st' delivered hconn hfd h
    unfold TsOutputSink.Write at h
    rw [if_neg (by simp [hconn]; omega)] at h
    rcases hr : TsOutputSink.writeLoop st data.length 0 sends with ⟨s1, w1, n1⟩
    rw [hr] at h
    simp only at h
    injection h with h1 h2
    injection h2 with h3 h4
    subst h3
    rw [← h1]
    exact TsOutputSink.writeLoop_failed_disconnects data.length sends st 0 s1 n1
      hconn hr
  · intro st data sends
    unfold TsOutputSink.Write
    by_cases hcond : st.client_connected = false ∨ st.client_fd < 0
    · rw [if_pos hcond, if_pos hcond]
    · rw [if_neg hcond, if_neg hcond, TsOutputSink.writeLoop_eintr]

/-- Witness for C8: a connected writer delivers all of `[1,2,3]` across two
sends with an EINTR in between; a mid-write EPIPE closes the client, marks
it disconnected, and fails having delivered only the first byte. -/
theorem tsOutputSink_write_contract_witness :
    (TsOutputSink.Write connectedWriter [1, 2, 3] [.sent 2, .eintr, .sent 1] =
      (connectedWriter, .ok, [1, 2, 3])) ∧
    ([1, 2, 3] : List Nat) = [1, 2, 3] ∧
    (TsOutputSink.Write connectedWriter [1, 2, 3] [.sent 1, .epipeOrReset] =
      ({ client_connected := false, client_fd := -1 }, .failed, [1])) ∧
    (({ client_connected := false, client_fd := -1 } :
        TsOutputSinkState).client_connected = false ∧
      ({ client_connected := false, client_fd := -1 } :
        TsOutputSinkState).client_fd = -1) := by
  refine ⟨by decide, ?_, by decide, ?_⟩
  · exact tsOutputSink_write_contract.2.1 connectedWriter [1, 2, 3]
      [.sent 2, .eintr, .sent 1] connectedWriter [1, 2, 3] (by decide)
  · exact tsOutputSink_write_contract.2.2.1 connectedWriter [1, 2, 3]
      [.sent 1, .epipeOrReset] { client_connected := false, client_fd := -1 }
      [1] (by decide) (by decide) (by decide)

set_option maxRecDepth 4096 in
/-- C9: shutdown padding.  When `stop()` runs on a running, not-yet-stopped
sink with a client connected, it joins the worker and accept threads
(draining the loop), closes the encoder, then writes exactly one 188-byte
null transport packet — sync byte `0x47`, bytes 1-2 `0x1F 0xFF` encoding
PID `0x1FFF` (`(b1 & 0x1F) << 8 | b2`), byte 3 `0x10`, remaining 184 bytes
zero — before the transport is closed; adding its length preserves
congruence to 0 modulo 188 of the stream byte count. -/
theorem stop_null_packet_padding (state : InternalState) (client_fd : Int)
    (hstate : state ≠ InternalState.Stopped) (hfd : 0 ≤ client_fd) :
    MpegTSPlayoutSink.stopActions true state true client_fd =
      [.joinWorkerThread, .joinAcceptThread, .closeEncoderPipeline,
       .sendBytes nullTsPacket, .closeTransport] ∧
    nullTsPacket.length = 188 ∧
    nullTsPacket.take 4 = [0x47, 0x1F, 0xFF, 0x10] ∧
    (nullTsPacket.getD 1 0) % 32 * 256 + nullTsPacket.getD 2 0 = 0x1FFF ∧
    nullTsPacket.drop 4 = List.replicate 184 0 ∧
    (∀ n : Nat, n % 188 = 0 → (n + nullTsPacket.length) % 188 = 0) := by
  have hlen : nullTsPacket.length = 188 := by
    simp [nullTsPacket]
  refine ⟨?_, hlen, rfl, by decide, rfl, ?_⟩
  · unfold MpegTSPlayoutSink.stopActions
    rw [if_neg (by decide), if_neg hstate, if_pos ⟨rfl, hfd⟩]
    rfl
  · intro n hn
    rw [hlen]
    omega

/-- Witness for C9 at state `Running` with client fd 0. -/
theorem stop_null_packet_padding_witness :
    (InternalState.Running ≠ InternalState.Stopped) ∧
    ((0 : Int) ≤ 0) ∧
    MpegTSPlayoutSink.stopActions true InternalState.Running true 0 =
      [.joinWorkerThread, .joinAcceptThread, .closeEncoderPipeline,
       .sendBytes nullTsPacket, .closeTransport] ∧
    (188 + nullTsPacket.length) % 188 = 0 :=
  ⟨by decide, by decide,
   (stop_null_packet_padding InternalState.Running 0 (by decide) (by decide)).1,
   (stop_null_packet_padding InternalState.Running 0 (by decide)
       (by decide)).2.2.2.2.2 188 (by decide)⟩

/-- C10 counterexample: `stop()` on a freshly constructed, never-started
sink completes immediately (early return on `running_ == false`), leaves
the internal state `Idle` — not `Stopped` — and a subsequent `start()`
succeeds.  So it is not true that after every completed `stop()` call
every later `start()` returns false. -/
theorem sink_restart_after_idle_stop :
    SinkLifecycle.init.stop = SinkLifecycle.init ∧
    ((SinkLifecycle.init.stop).start true).2 = true ∧
    (SinkLifecycle.init.stop).internal_state ≠ InternalState.Stopped := by
  decide

/-- C10 amended: `start()` succeeds only from internal state `Idle`, and
`stop()` on a sink that has actually been started (`running_ == true`)
leaves the internal state `Stopped`; after that every `start()` call
returns false and the state remains `Stopped` under both `start()` and
`stop()` — the sink cannot be restarted. -/
theorem sink_single_use (s : SinkLifecycle) (hrun : s.running = true) :
    (s.stop).internal_state = InternalState.Stopped ∧
    (∀ ok : Bool, ((s.stop).start ok).2 = false ∧
      ((s.stop).start ok).1.internal_state = InternalState.Stopped) ∧
    ((s.stop).stop).internal_state = InternalState.Stopped ∧
    (∀ (t : SinkLifecycle) (ok : Bool),
      (t.start ok).2 = true → t.internal_state = InternalState.Idle) := by
  have hlast : ∀ (t : SinkLifecycle) (ok : Bool),
      (t.start ok).2 = true → t.internal_state = InternalState.Idle := by
    intro t ok h
    obtain ⟨tr, tst⟩ := t
    cases tr <;> cases tst <;> cases ok <;> simp_all [SinkLifecycle.start]
  obtain ⟨r, st⟩ := s
  simp only at hrun
  subst hrun
  refine ⟨?_, ?_, ?_, hlast⟩ <;>
    cases st <;> simp [SinkLifecycle.stop, SinkLifecycle.start]

/-- Witness for C10's amended claim at a running sink in state `Running`. -/
theorem sink_single_use_witness :
    ({ running := true, internal_state := InternalState.Running } :
        SinkLifecycle).running = true ∧
    (({ running := true, internal_state := InternalState.Running } :
        SinkLifecycle).stop).internal_state = InternalState.Stopped ∧
    ((({ running := true, internal_state := InternalState.Running } :
        SinkLifecycle).stop).start true).2 = false :=
  ⟨rfl,
   (sink_single_use
     { running := true, internal_state := InternalState.Running } rfl).1,
   ((sink_single_use
     { running := true, internal_state := InternalState.Running } rfl).2.1
       true).1⟩

/-- C3 (code bug): `PlayoutEngine::SwitchToLive` on a channel whose live
stream last emitted PTS 33333 µs (so the contiguous first live PTS would
be 33333 + 33333 = 66666) succeeds, moves the preview producer into the
live slot with its PTS stream unchanged — still starting at 0 — yet the
response hard-codes `pts_contiguous = true` and `live_start_pts = 0`.
The reported contiguity is not established by the code (its own comment:
"Simplified - would check actual PTS continuity"). -/
theorem switchToLive_contiguity_not_enforced :
    (PlayoutEngine.SwitchToLive switchDemoChannels 1).2.success = true ∧
    (PlayoutEngine.SwitchToLive switchDemoChannels 1).2.pts_contiguous = true ∧
    (PlayoutEngine.SwitchToLive switchDemoChannels 1).2.live_start_pts = 0 ∧
    (((PlayoutEngine.SwitchToLive switchDemoChannels 1).1.lookup 1).map
        (fun st => st.live_producer)) =
      some (some { asset_uri := "assetB", pts_stream := [0, 33333, 66666] }) ∧
    ((0 : Int) ≠ 33333 + 33333) := by
  refine ⟨rfl, rfl, rfl, rfl, by decide⟩

/-- C4 counterexample: `StopChannel` for a channel absent from the map
(already stopped) returns failure with a "not found" message, not success
as the claim states. -/
theorem stopChannel_absent_not_found :
    (PlayoutEngine.StopChannel [] 7).2.success = false ∧
    (PlayoutEngine.StopChannel [] 7).2.message = "Channel 7 not found" ∧
    (PlayoutEngine.StopChannel [] 7).1 = [] := by
  refine ⟨rfl, by decide, rfl⟩

/-- C4 amended: `StartChannel` for an already-started channel id returns
success with the advisory message "Channel <id> already started" and
leaves the channel map unchanged (no second set of resources);
`StopChannel` for a channel absent from the map returns failure with
"Channel <id> not found" and leaves the map unchanged. -/
theorem channel_lifecycle_idempotency :
    (∀ (channels : List (Int × ChannelState)) (channel_id : Int)
        (built : Option ChannelState) (fail_message : String)
        (st : ChannelState),
      channels.lookup channel_id = some st →
      PlayoutEngine.StartChannel channels channel_id built fail_message =
        (channels,
         { success := true
           message := "Channel " ++ toString channel_id ++
             " already started" })) ∧
    (∀ (channels : List (Int × ChannelState)) (channel_id : Int),
      channels.lookup channel_id = none →
      PlayoutEngine.StopChannel channels channel_id =
        (channels,
         { success := false
           message := "Channel " ++ toString channel_id ++ " not found" })) := by
  constructor
  · intro channels channel_id built fail_message st hfound
    unfold PlayoutEngine.StartChannel
    rw [hfound]
    rfl
  · intro channels channel_id hnone
    unfold PlayoutEngine.StopChannel
    rw [hnone]

/-- Witness for C4's amended claim: starting channel 1 again on a map that
already holds it, and stopping channel 2 on an empty map. -/
theorem channel_lifecycle_idempotency_witness :
    ([(1, demoChannelState)].lookup (1 : Int) = some demoChannelState) ∧
    (PlayoutEngine.StartChannel [(1, demoChannelState)] 1 none "fail" =
      ([(1, demoChannelState)],
       { success := true, message := "Channel 1 already started" })) ∧
    (([] : List (Int × ChannelState)).lookup (2 : Int) = none) ∧
    (PlayoutEngine.StopChannel [] 2 =
      ([], { success := false, message := "Channel 2 not found" })) := by
  refine ⟨rfl, ?_, rfl, ?_⟩
  · have h := channel_lifecycle_idempotency.1 [(1, demoChannelState)] 1 none
      "fail" demoChannelState rfl
    rw [h]
    decide
  · have h := channel_lifecycle_idempotency.2 [] 2 rfl
    rw [h]
    decide

end RetrovueAir
